import Mathlib

/-!
Shallow embedding of the records/accounting web application (`src/app.py`)
and verification of its specified properties.

Modelling conventions:
* SQLite `REAL` amounts are modelled as `ℚ` (the arithmetic in the code is
  plain field arithmetic on the stored values).
* Calendar dates are modelled as integer day ordinals, so the Python
  expression `(expiry - date.today()).days` becomes integer subtraction.
* Database tables are modelled as Lean lists of rows; each route handler
  becomes a pure function from the relevant state to the new state.
-/

namespace RecordsApp

/-! ### Daily accounting ledger (`accounting_daily`, `src/app.py:574-713`)

The GET branch of `accounting_daily` computes the reconciliation totals
from the stored child rows and the header fields. -/

/-- The `totals` dictionary built by `accounting_daily` (`src/app.py:687-702`). -/
structure DailyTotals where
  inputs : ℚ
  general : ℚ
  petty : ℚ
  expenses : ℚ
  cash_start : ℚ
  cash_end : ℚ
  total_overall : ℚ
  total_in_enjaz : ℚ
  error : ℚ
  deriving Repr, DecidableEq

/-- `accounting_daily` totals computation (`src/app.py:684-702`):
`_sum` over each child row set, `expenses = general + petty`,
`total_overall = inputs + expenses + cash_end - cash_start`,
`error = total_overall - total_in_enjaz`. -/
def dailyTotals (inputs gen petty : List ℚ)
    (cash_start cash_end total_in_enjaz : ℚ) : DailyTotals :=
  let ti := inputs.sum
  let tg := gen.sum
  let tp := petty.sum
  let expenses := tg + tp
  let total_overall := ti + expenses + cash_end - cash_start
  { inputs := ti
    general := tg
    petty := tp
    expenses := expenses
    cash_start := cash_start
    cash_end := cash_end
    total_overall := total_overall
    total_in_enjaz := total_in_enjaz
    error := total_overall - total_in_enjaz }

/-! ### Monthly commission (`calculate_monthly_commission`, `src/app.py:931-938`) -/

/-- The singleton settings row of `monthly_commission_settings`. -/
structure CommissionSettings where
  commission_rate : ℚ
  fixed_deduction : ℚ
  employees_count : ℤ
  deriving Repr, DecidableEq

/-- `calculate_monthly_commission` (`src/app.py:931-938`).
Python computes `emp_count = int(settings["employees_count"]) or 1`: the
`or` replaces only the falsy value `0` by `1`; every nonzero value
(including negative ones) passes through unchanged. -/
def calculate_monthly_commission (sales : ℚ) (settings : CommissionSettings) :
    ℚ × ℚ :=
  let emp_count : ℤ := if settings.employees_count = 0 then 1 else settings.employees_count
  let total_commission := sales * settings.commission_rate
  let employee_commission := (total_commission - settings.fixed_deduction) / (emp_count : ℚ)
  (total_commission, employee_commission)

/-! ### Movements range aggregation (`accounting_movements`, `src/app.py:716-810`) -/

/-- One `daily_header` row together with its child amount lists
(the per-header `SUM(amount)` queries read exactly these lists). -/
structure DayHeader where
  day_date : String
  cash_start : ℚ
  cash_end : ℚ
  total_in_enjaz : ℚ
  inputs : List ℚ
  gen : List ℚ
  petty : List ℚ

/-- One entry of the `rows` list built by `accounting_movements`
(`src/app.py:767-778`). -/
structure DayRow where
  day_date : String
  cash_start : ℚ
  cash_end : ℚ
  total_inputs : ℚ
  total_general : ℚ
  total_petty : ℚ
  expenses : ℚ
  total_in_enjaz : ℚ
  total_overall : ℚ
  error : ℚ

/-- The per-day row computed in the loop body of `accounting_movements`
(`src/app.py:741-778`). -/
def dayRow (h : DayHeader) : DayRow :=
  let total_inputs := h.inputs.sum
  let total_general := h.gen.sum
  let total_petty := h.petty.sum
  let expenses := total_general + total_petty
  let total_overall := total_inputs + expenses + h.cash_end - h.cash_start
  { day_date := h.day_date
    cash_start := h.cash_start
    cash_end := h.cash_end
    total_inputs := total_inputs
    total_general := total_general
    total_petty := total_petty
    expenses := expenses
    total_in_enjaz := h.total_in_enjaz
    total_overall := total_overall
    error := total_overall - h.total_in_enjaz }

/-- Accumulator for the `overall_*` running sums of `accounting_movements`
(`src/app.py:738-739`). -/
structure MoveAcc where
  inputs : ℚ
  general : ℚ
  petty : ℚ
  cash_start : ℚ
  cash_end : ℚ
  total_in_enjaz : ℚ

/-- The `overall_* += ...` statements at the end of the loop body
(`src/app.py:780-785`). -/
def moveStep (acc : MoveAcc) (h : DayHeader) : MoveAcc :=
  { inputs := acc.inputs + h.inputs.sum
    general := acc.general + h.gen.sum
    petty := acc.petty + h.petty.sum
    cash_start := acc.cash_start + h.cash_start
    cash_end := acc.cash_end + h.cash_end
    total_in_enjaz := acc.total_in_enjaz + h.total_in_enjaz }

/-- The `overall` dictionary of `accounting_movements` (`src/app.py:791-801`). -/
structure Overall where
  inputs : ℚ
  general : ℚ
  petty : ℚ
  expenses : ℚ
  cash_start : ℚ
  cash_end : ℚ
  total_in_enjaz : ℚ
  total_overall : ℚ
  error : ℚ

/-- The `rows` list of `accounting_movements`. -/
def movementsRows (hs : List DayHeader) : List DayRow :=
  hs.map dayRow

/-- The `overall` total row of `accounting_movements` (`src/app.py:787-801`):
the six running sums accumulated over the loop, then
`expenses`, `total_overall` and `error` derived from them. -/
def movementsOverall (hs : List DayHeader) : Overall :=
  let a := hs.foldl moveStep ⟨0, 0, 0, 0, 0, 0⟩
  let expenses := a.general + a.petty
  let total_overall := a.inputs + expenses + a.cash_end - a.cash_start
  { inputs := a.inputs
    general := a.general
    petty := a.petty
    expenses := expenses
    cash_start := a.cash_start
    cash_end := a.cash_end
    total_in_enjaz := a.total_in_enjaz
    total_overall := total_overall
    error := total_overall - a.total_in_enjaz }

/-! ### Helper lemmas on list sums -/

theorem sum_map_add {α : Type} (l : List α) (f g : α → ℚ) :
    (l.map fun x => f x + g x).sum = (l.map f).sum + (l.map g).sum := by
  induction l with
  | nil => simp
  | cons x xs ih => simp [ih]; ring

theorem sum_map_sub {α : Type} (l : List α) (f g : α → ℚ) :
    (l.map fun x => f x - g x).sum = (l.map f).sum - (l.map g).sum := by
  induction l with
  | nil => simp
  | cons x xs ih => simp [ih]; ring

theorem foldl_moveStep (hs : List DayHeader) (a : MoveAcc) :
    hs.foldl moveStep a =
      { inputs := a.inputs + (hs.map fun h => h.inputs.sum).sum
        general := a.general + (hs.map fun h => h.gen.sum).sum
        petty := a.petty + (hs.map fun h => h.petty.sum).sum
        cash_start := a.cash_start + (hs.map fun h => h.cash_start).sum
        cash_end := a.cash_end + (hs.map fun h => h.cash_end).sum
        total_in_enjaz := a.total_in_enjaz + (hs.map fun h => h.total_in_enjaz).sum } := by
  induction hs generalizing a with
  | nil => simp
  | cons h hs ih =>
      simp only [List.foldl_cons, List.map_cons, List.sum_cons, ih, moveStep,
        MoveAcc.mk.injEq]
      refine ⟨?_, ?_, ?_, ?_, ?_, ?_⟩ <;> ring

theorem movementsRows_map_sum (hs : List DayHeader) (f : DayRow → ℚ)
    (g : DayHeader → ℚ) (hfg : ∀ h, f (dayRow h) = g h) :
    ((movementsRows hs).map f).sum = (hs.map g).sum := by
  have : (f ∘ dayRow) = g := funext hfg
  simp [movementsRows, List.map_map, this]

/-- C1: the displayed daily totals satisfy the reconciliation formula
`total_overall = sum(inputs) + sum(general) + sum(petty) + cash_end - cash_start`
and `error = total_overall - total_in_enjaz`; moreover, on the spec's
end-to-end example (cash_start=100, cash_end=150, one input 200, one general
expense 30, total_in_enjaz=320) the result is expenses=30, total_overall=280,
error=-40. -/
theorem c1_daily_totals_formula :
    (∀ (inputs gen petty : List ℚ) (cs ce enjaz : ℚ),
      (dailyTotals inputs gen petty cs ce enjaz).total_overall =
          inputs.sum + gen.sum + petty.sum + ce - cs ∧
      (dailyTotals inputs gen petty cs ce enjaz).error =
          (dailyTotals inputs gen petty cs ce enjaz).total_overall - enjaz) ∧
    (dailyTotals [200] [30] [] 100 150 320).expenses = 30 ∧
    (dailyTotals [200] [30] [] 100 150 320).total_overall = 280 ∧
    (dailyTotals [200] [30] [] 100 150 320).error = -40 := by
  refine ⟨fun inputs gen petty cs ce enjaz => ⟨?_, rfl⟩, by norm_num [dailyTotals],
    by norm_num [dailyTotals], by norm_num [dailyTotals]⟩
  simp [dailyTotals]; ring

theorem sum_expenses_split (hs : List DayHeader) :
    (hs.map fun h => h.gen.sum + h.petty.sum).sum
      = (hs.map fun h => h.gen.sum).sum + (hs.map fun h => h.petty.sum).sum := by
  induction hs with
  | nil => simp
  | cons h hs ih => simp only [List.map_cons, List.sum_cons, ih]; ring

theorem sum_total_overall_split (hs : List DayHeader) :
    (hs.map fun h =>
        h.inputs.sum + (h.gen.sum + h.petty.sum) + h.cash_end - h.cash_start).sum
      = (hs.map fun h => h.inputs.sum).sum
        + ((hs.map fun h => h.gen.sum).sum + (hs.map fun h => h.petty.sum).sum)
        + (hs.map fun h => h.cash_end).sum - (hs.map fun h => h.cash_start).sum := by
  induction hs with
  | nil => simp
  | cons h hs ih => simp only [List.map_cons, List.sum_cons, ih]; ring

theorem sum_error_split (hs : List DayHeader) :
    (hs.map fun h =>
        h.inputs.sum + (h.gen.sum + h.petty.sum) + h.cash_end - h.cash_start
          - h.total_in_enjaz).sum
      = (hs.map fun h => h.inputs.sum).sum
        + ((hs.map fun h => h.gen.sum).sum + (hs.map fun h => h.petty.sum).sum)
        + (hs.map fun h => h.cash_end).sum - (hs.map fun h => h.cash_start).sum
        - (hs.map fun h => h.total_in_enjaz).sum := by
  induction hs with
  | nil => simp
  | cons h hs ih => simp only [List.map_cons, List.sum_cons, ih]; ring

/-- C4: every aggregated field of the movements `overall` row equals the sum
of the corresponding per-day values over the date range. -/
theorem c4_movements_overall_is_sum (hs : List DayHeader) :
    (movementsOverall hs).inputs = ((movementsRows hs).map DayRow.total_inputs).sum ∧
    (movementsOverall hs).general = ((movementsRows hs).map DayRow.total_general).sum ∧
    (movementsOverall hs).petty = ((movementsRows hs).map DayRow.total_petty).sum ∧
    (movementsOverall hs).expenses = ((movementsRows hs).map DayRow.expenses).sum ∧
    (movementsOverall hs).cash_start = ((movementsRows hs).map DayRow.cash_start).sum ∧
    (movementsOverall hs).cash_end = ((movementsRows hs).map DayRow.cash_end).sum ∧
    (movementsOverall hs).total_in_enjaz = ((movementsRows hs).map DayRow.total_in_enjaz).sum ∧
    (movementsOverall hs).total_overall = ((movementsRows hs).map DayRow.total_overall).sum ∧
    (movementsOverall hs).error = ((movementsRows hs).map DayRow.error).sum := by
  have hexp := sum_expenses_split hs
  have htot := sum_total_overall_split hs
  have herr := sum_error_split hs
  simp only [movementsOverall, foldl_moveStep]
  refine ⟨?_, ?_, ?_, ?_, ?_, ?_, ?_, ?_, ?_⟩
  · rw [movementsRows_map_sum hs DayRow.total_inputs (fun h => h.inputs.sum) (fun h => rfl)]
    simp
  · rw [movementsRows_map_sum hs DayRow.total_general (fun h => h.gen.sum) (fun h => rfl)]
    simp
  · rw [movementsRows_map_sum hs DayRow.total_petty (fun h => h.petty.sum) (fun h => rfl)]
    simp
  · rw [movementsRows_map_sum hs DayRow.expenses (fun h => h.gen.sum + h.petty.sum)
      (fun h => rfl), hexp]
    simp
  · rw [movementsRows_map_sum hs DayRow.cash_start (fun h => h.cash_start) (fun h => rfl)]
    simp
  · rw [movementsRows_map_sum hs DayRow.cash_end (fun h => h.cash_end) (fun h => rfl)]
    simp
  · rw [movementsRows_map_sum hs DayRow.total_in_enjaz (fun h => h.total_in_enjaz)
      (fun h => rfl)]
    simp
  · rw [movementsRows_map_sum hs DayRow.total_overall
      (fun h => h.inputs.sum + (h.gen.sum + h.petty.sum) + h.cash_end - h.cash_start)
      (fun h => rfl), htot]
    simp
  · rw [movementsRows_map_sum hs DayRow.error
      (fun h => h.inputs.sum + (h.gen.sum + h.petty.sum) + h.cash_end - h.cash_start
        - h.total_in_enjaz)
      (fun h => rfl), herr]
    simp

/-! ### Expiry coloring and alert window (`days_left`/`status_color`,
`src/app.py:387-401`, and the alert scan in `tasks`, `src/app.py:1493-1564`)

Dates are modelled as integer day ordinals, so `(expiry - date.today()).days`
is integer subtraction. -/

/-- `days_left` (`src/app.py:387-390`). -/
def days_left (today : ℤ) (expiry : Option ℤ) : Option ℤ :=
  expiry.map fun e => e - today

/-- `status_color` (`src/app.py:393-401`). -/
def status_color (today : ℤ) (expiry : Option ℤ) : String :=
  match days_left today expiry with
  | none => "bg-blue"
  | some dl =>
      if 45 < dl then "bg-green"
      else if 1 ≤ dl ∧ dl ≤ 45 then "bg-yellow"
      else "bg-red"

/-- `DAYS_WINDOW` constant of the `tasks` route (`src/app.py:1494`). -/
def DAYS_WINDOW : ℤ := 45

/-- A row of one of the `records_es*` tables as read by the alert scan;
`expiry_date` is the parsed date (`none` models null/unparsable). -/
structure SrcRecord where
  record_type : String
  record_number : String
  expiry_date : Option ℤ
  deriving Repr, DecidableEq

/-- One entry of the `alerts` list built by the `tasks` route
(`src/app.py:1525-1532`). -/
structure Alert where
  source : String
  name : String
  number : String
  expiry : ℤ
  days_left : ℤ
  color : String
  deriving Repr, DecidableEq

/-- The alert scan over one records table (`src/app.py:1517-1532`): rows
without a parseable date are skipped, rows with `days_left > DAYS_WINDOW`
are skipped, every other row contributes one alert. -/
def recordAlerts (today : ℤ) (kind : String) (recs : List SrcRecord) : List Alert :=
  recs.filterMap fun r =>
    match r.expiry_date with
    | none => none
    | some d =>
        if DAYS_WINDOW < d - today then none
        else some
          { source := kind
            name := r.record_type
            number := r.record_number
            expiry := d
            days_left := d - today
            color := status_color today (some d) }

/-! ### Monthly commission state (`monthly_commission`, `src/app.py:941-1048`) -/

/-- One row of `monthly_commissions` (timestamps not modelled). -/
structure MonthlyRow where
  month : String
  sales_before_tax : ℚ
  total_commission : ℚ
  employee_commission : ℚ
  rate_snapshot : ℚ
  deduction_snapshot : ℚ
  employees_snapshot : ℤ
  deriving Repr, DecidableEq

/-- The commission tables: the singleton settings row plus the saved
monthly rows. -/
structure CommissionState where
  settings : CommissionSettings
  rows : List MonthlyRow
  deriving Repr, DecidableEq

/-- The `save_settings` action (`src/app.py:951-972`): clamp
`employees_count < 1` to `1`, then `UPDATE monthly_commission_settings`
(the monthly rows table is not touched). -/
def save_settings (s : CommissionState) (rate deduction : ℚ)
    (employees_count : ℤ) : CommissionState :=
  let emp := if employees_count < 1 then 1 else employees_count
  { s with settings := ⟨rate, deduction, emp⟩ }

/-- The row written for a month by the save action (`src/app.py:987-1027`):
computed totals plus a snapshot of the settings used. -/
def snapshotRow (settings : CommissionSettings) (month : String) (sales : ℚ) :
    MonthlyRow :=
  let tc_ec := calculate_monthly_commission sales settings
  { month := month
    sales_before_tax := sales
    total_commission := tc_ec.1
    employee_commission := tc_ec.2
    rate_snapshot := settings.commission_rate
    deduction_snapshot := settings.fixed_deduction
    employees_snapshot := settings.employees_count }

/-- The month-save branch of `monthly_commission` (`src/app.py:974-1030`):
`UPDATE` of the existing row for that month, else `INSERT`. -/
def save_month (s : CommissionState) (month : String) (sales : ℚ) :
    CommissionState :=
  let row := snapshotRow s.settings month sales
  if s.rows.any fun r => r.month == month then
    { s with rows := s.rows.map fun r => if r.month == month then row else r }
  else
    { s with rows := s.rows ++ [row] }

/-! ### Claim theorems: C2, C5, C7 -/

/-- C2 counterexample: for a negative employee count the code does NOT
divide by `max(employee_count, 1)`. With sales=1000, rate=1, deduction=0,
employees_count=-1 the code divides by -1 and returns -1000, while the
claimed formula gives 1000. -/
theorem c2_commission_clamp_counterexample :
    (calculate_monthly_commission 1000 ⟨1, 0, -1⟩).2
      ≠ ((1000 : ℚ) * 1 - 0) / ((max (-1 : ℤ) 1 : ℤ) : ℚ) := by
  norm_num [calculate_monthly_commission]

/-- C2 (amended): `total_commission = sales * rate` always, and
`employee_commission = (sales * rate - fixed_deduction) / max(employee_count, 1)`
holds for every non-negative `employee_count` (Python's `int(...) or 1`
replaces only the value `0` by `1`; negative counts pass through). -/
theorem c2_commission_formula (sales rate deduction : ℚ) (emp : ℤ)
    (h : 0 ≤ emp) :
    (calculate_monthly_commission sales ⟨rate, deduction, emp⟩).1 = sales * rate ∧
    (calculate_monthly_commission sales ⟨rate, deduction, emp⟩).2
      = (sales * rate - deduction) / ((max emp 1 : ℤ) : ℚ) := by
  refine ⟨rfl, ?_⟩
  by_cases he : emp = 0
  · subst he; simp [calculate_monthly_commission]
  · have hmax : max emp 1 = emp := by omega
    simp [calculate_monthly_commission, he, hmax]

/-- C2 witness: the amended formula at employees_count = 0 (the clamp case). -/
theorem c2_commission_formula_witness :
    (0 : ℤ) ≤ 0 ∧
    ((calculate_monthly_commission 1000 ⟨1, 200, 0⟩).1 = 1000 * 1 ∧
      (calculate_monthly_commission 1000 ⟨1, 200, 0⟩).2
        = ((1000 : ℚ) * 1 - 200) / ((max (0 : ℤ) 1 : ℤ) : ℚ)) :=
  ⟨le_refl 0, c2_commission_formula 1000 1 200 0 (le_refl 0)⟩

/-- C5: the 4-bucket expiry status — no date → neutral (blue);
days-left > 45 → ok (green); days-left in 1..45 → warning (yellow);
days-left ≤ 0 → overdue (red) — and an item appears in the alert list
exactly when its days-left is ≤ 45 (no lower bound). -/
theorem c5_expiry_buckets :
    (∀ today : ℤ, status_color today none = "bg-blue") ∧
    (∀ today e : ℤ,
      (status_color today (some e) = "bg-green" ↔ 45 < e - today) ∧
      (status_color today (some e) = "bg-yellow" ↔ 1 ≤ e - today ∧ e - today ≤ 45) ∧
      (status_color today (some e) = "bg-red" ↔ e - today ≤ 0)) ∧
    (∀ (today : ℤ) (kind : String) (recs : List SrcRecord) (a : Alert),
      a ∈ recordAlerts today kind recs → a.days_left ≤ 45) ∧
    (∀ (today : ℤ) (kind : String) (recs : List SrcRecord) (r : SrcRecord) (d : ℤ),
      r ∈ recs → r.expiry_date = some d →
      (({ source := kind, name := r.record_type, number := r.record_number,
          expiry := d, days_left := d - today,
          color := status_color today (some d) } : Alert)
            ∈ recordAlerts today kind recs
        ↔ d - today ≤ 45)) := by
  have hmem : ∀ (today : ℤ) (kind : String) (recs : List SrcRecord) (a : Alert),
      a ∈ recordAlerts today kind recs → a.days_left ≤ 45 := by
    intro today kind recs a ha
    rw [recordAlerts, List.mem_filterMap] at ha
    obtain ⟨r, _, hr⟩ := ha
    cases hd : r.expiry_date with
    | none => rw [hd] at hr; exact absurd hr (by simp)
    | some d =>
        rw [hd] at hr
        simp only [DAYS_WINDOW] at hr
        by_cases hlt : 45 < d - today
        · rw [if_pos hlt] at hr; exact absurd hr (by simp)
        · rw [if_neg hlt] at hr
          have : a.days_left = d - today := by
            cases Option.some.inj hr; rfl
          omega
  refine ⟨fun today => rfl, ?_, hmem, ?_⟩
  · intro today e
    have hred : status_color today (some e)
        = (if 45 < e - today then "bg-green"
          else if 1 ≤ e - today ∧ e - today ≤ 45 then "bg-yellow" else "bg-red") := rfl
    rw [hred]
    refine ⟨?_, ?_, ?_⟩ <;> split_ifs with h1 h2 <;>
      simp_all <;> omega
  · intro today kind recs r d hr hd
    constructor
    · intro hmem2
      have := hmem today kind recs _ hmem2
      simpa using this
    · intro hle
      rw [recordAlerts, List.mem_filterMap]
      refine ⟨r, hr, ?_⟩
      rw [hd]
      simp only [DAYS_WINDOW]
      rw [if_neg (by omega)]

/-- C5 witness: at the boundary, a record expiring in 45 days is included
in the alert list (and colored yellow), and a record 100 days overdue is
also included (no lower bound). -/
theorem c5_expiry_buckets_witness :
    ((⟨"t", "n", some 45⟩ : SrcRecord) ∈ [(⟨"t", "n", some 45⟩ : SrcRecord)] ∧
      (⟨"t", "n", some 45⟩ : SrcRecord).expiry_date = some 45 ∧
      (({ source := "ES1", name := "t", number := "n", expiry := 45,
          days_left := 45, color := status_color 0 (some 45) } : Alert)
            ∈ recordAlerts 0 "ES1" [⟨"t", "n", some 45⟩]
        ↔ (45 : ℤ) - 0 ≤ 45)) ∧
    ((⟨"t", "n", some (-100)⟩ : SrcRecord) ∈ [(⟨"t", "n", some (-100)⟩ : SrcRecord)] ∧
      (({ source := "ES1", name := "t", number := "n", expiry := -100,
          days_left := -100, color := status_color 0 (some (-100)) } : Alert)
            ∈ recordAlerts 0 "ES1" [⟨"t", "n", some (-100)⟩]
        ↔ (-100 : ℤ) - 0 ≤ 45)) := by
  have h45 := c5_expiry_buckets.2.2.2 0 "ES1" [⟨"t", "n", some 45⟩]
    ⟨"t", "n", some 45⟩ 45 (by simp) rfl
  have hneg := c5_expiry_buckets.2.2.2 0 "ES1" [⟨"t", "n", some (-100)⟩]
    ⟨"t", "n", some (-100)⟩ (-100) (by simp) rfl
  refine ⟨⟨by simp, rfl, ?_⟩, ⟨by simp, ?_⟩⟩
  · simpa using h45
  · simpa using hneg

/-- C7: saving new commission settings modifies only the settings row —
the saved monthly rows (and in particular every stored snapshot and stored
computed total) are unchanged; a row saved for a month always carries the
settings active at save time, and a later settings change leaves it equal
to that old-settings snapshot. -/
theorem c7_settings_change_frame :
    (∀ (s : CommissionState) (rate deduction : ℚ) (emp : ℤ),
      (save_settings s rate deduction emp).rows = s.rows) ∧
    (∀ (s : CommissionState) (month : String) (sales : ℚ) (r : MonthlyRow),
      r ∈ (save_month s month sales).rows → r.month = month →
      r = snapshotRow s.settings month sales) ∧
    (∀ (s : CommissionState) (month : String) (sales : ℚ)
        (rate deduction : ℚ) (emp : ℤ) (r : MonthlyRow),
      r ∈ (save_settings (save_month s month sales) rate deduction emp).rows →
      r.month = month →
      r = snapshotRow s.settings month sales) := by
  have hrow : ∀ (s : CommissionState) (month : String) (sales : ℚ) (r : MonthlyRow),
      r ∈ (save_month s month sales).rows → r.month = month →
      r = snapshotRow s.settings month sales := by
    intro s month sales r hr hm
    rw [save_month] at hr
    split at hr
    · simp only [List.mem_map] at hr
      obtain ⟨r0, _, hr0⟩ := hr
      by_cases h0 : r0.month == month
      · rw [if_pos h0] at hr0; exact hr0.symm
      · rw [if_neg h0] at hr0
        subst hr0
        exact absurd (beq_iff_eq.mpr hm) h0
    · simp only [List.mem_append, List.mem_singleton] at hr
      rcases hr with hin | heq
      · next hany =>
          exfalso
          rw [List.any_eq_true] at hany
          exact hany ⟨r, hin, beq_iff_eq.mpr hm⟩
      · exact heq
  exact ⟨fun s rate d e => rfl, hrow,
    fun s month sales rate d e r hr hm => hrow s month sales r hr hm⟩

/-- C7 witness: saving month "2024-01" then changing the settings leaves the
stored row equal to the snapshot computed from the original settings. -/
theorem c7_settings_change_frame_witness :
    (snapshotRow ⟨1, 0, 2⟩ "2024-01" 1000
        ∈ (save_settings (save_month ⟨⟨1, 0, 2⟩, []⟩ "2024-01" 1000) 2 50 4).rows) ∧
    (snapshotRow ⟨1, 0, 2⟩ "2024-01" 1000).month = "2024-01" ∧
    snapshotRow ⟨1, 0, 2⟩ "2024-01" 1000
      = snapshotRow (⟨⟨1, 0, 2⟩, []⟩ : CommissionState).settings "2024-01" 1000 := by
  refine ⟨?_, rfl, ?_⟩
  · simp [save_settings, save_month, snapshotRow]
  · exact c7_settings_change_frame.2.2 ⟨⟨1, 0, 2⟩, []⟩ "2024-01" 1000 2 50 4
      (snapshotRow ⟨1, 0, 2⟩ "2024-01" 1000)
      (by simp [save_settings, save_month, snapshotRow]) rfl

/-! ### Amount parsing (`_to_float`, `src/app.py:562-571`) and the daily
save branch (`src/app.py:592-658`) -/

/-- Numeric value of a list of decimal digit characters (most significant
first). -/
def digitsToNat (ds : List Char) : ℕ :=
  ds.foldl (fun n c => n * 10 + (c.toNat - 48)) 0

/-- Python `str.strip()`: drop whitespace from both ends. -/
def pyStrip (s : String) : String :=
  ⟨((s.toList.dropWhile Char.isWhitespace).reverse.dropWhile Char.isWhitespace).reverse⟩

/-- Python `str.replace(",", "")`: drop every comma. -/
def removeCommas (s : String) : String :=
  ⟨s.toList.filter fun c => c ≠ ','⟩

/-- Models Python `float(s)`: optional sign, integer digits, optional
fractional part, optional decimal exponent; `none` models `ValueError`.
(The special spellings `inf`/`nan` and digit-group underscores accepted by
`float` are not modelled; the amounts this program parses are plain decimal
numerals.) -/
def parseFloat? (s : String) : Option ℚ :=
  let cs := s.toList
  let p1 : ℚ × List Char :=
    match cs with
    | '+' :: rest => (1, rest)
    | '-' :: rest => (-1, rest)
    | _ => (1, cs)
  let sign := p1.1
  let intPart := p1.2.takeWhile Char.isDigit
  let afterInt := p1.2.dropWhile Char.isDigit
  let p2 : List Char × List Char :=
    match afterInt with
    | '.' :: rest => (rest.takeWhile Char.isDigit, rest.dropWhile Char.isDigit)
    | rest => ([], rest)
  let fracPart := p2.1
  let afterFrac := p2.2
  if intPart.isEmpty ∧ fracPart.isEmpty then none
  else
    let mantissa : ℚ :=
      sign * ((digitsToNat intPart : ℚ) + (digitsToNat fracPart : ℚ) / 10 ^ fracPart.length)
    match afterFrac with
    | [] => some mantissa
    | e :: rest =>
        if e = 'e' ∨ e = 'E' then
          let p3 : ℤ × List Char :=
            match rest with
            | '+' :: r2 => (1, r2)
            | '-' :: r2 => (-1, r2)
            | _ => (1, rest)
          let expDigits := p3.2.takeWhile Char.isDigit
          let afterExp := p3.2.dropWhile Char.isDigit
          if expDigits.isEmpty ∨ ¬ afterExp.isEmpty then none
          else some (mantissa * (10 : ℚ) ^ (p3.1 * (digitsToNat expDigits : ℤ)))
        else none

/-- `_to_float` (`src/app.py:562-571`): `None` → default; otherwise strip
whitespace, drop every comma (thousands separator), empty → default,
unparsable → default. -/
def to_float (v : Option String) (default : ℚ) : ℚ :=
  match v with
  | none => default
  | some raw =>
      if removeCommas (pyStrip raw) = "" then default
      else
        match parseFloat? (removeCommas (pyStrip raw)) with
        | some q => q
        | none => default

/-- `_to_float` on `None` returns the default (`src/app.py:564-565`). -/
theorem to_float_none (d : ℚ) : to_float none d = d := rfl

/-- `_to_float` returns the default whenever the stripped, comma-free
string does not parse (`src/app.py:567-571`): this covers both the blank
case and the `ValueError` case. -/
theorem to_float_parse_fail (s : String) (d : ℚ)
    (h : parseFloat? (removeCommas (pyStrip s)) = none) :
    to_float (some s) d = d := by
  rw [to_float]
  split_ifs with he
  · rfl
  · rw [h]

/-- `_to_float` returns the parsed value of the stripped, comma-free
string when it parses (`src/app.py:566-569`). -/
theorem to_float_parse_ok (s : String) (q d : ℚ)
    (h : parseFloat? (removeCommas (pyStrip s)) = some q) :
    to_float (some s) d = q := by
  rw [to_float]
  split_ifs with he
  · have h0 : parseFloat? "" = none := rfl
    rw [he, h0] at h
    exact Option.noConfusion h
  · rw [h]

/-- One stored child line-item row (`daily_inputs` /
`daily_expenses_general` / `daily_expenses_petty`). -/
structure LineItem where
  label : String
  amount : ℚ
  deriving Repr, DecidableEq

/-- The literal stored when a row is submitted with an empty label
(`src/app.py:624`). -/
def placeholderLabel : String := "(بدون عنوان)"

/-- The per-row-set loop of the daily save branch (`src/app.py:617-654`):
zip the submitted label and amount lists, strip the label, parse the
amount; keep the row iff the label is nonempty or the amount nonzero;
an empty label becomes the placeholder. -/
def processRows (types amounts : List String) : List LineItem :=
  (types.zip amounts).filterMap fun ta =>
    let t := pyStrip ta.1
    let amt := to_float (some ta.2) 0
    if t ≠ "" ∨ amt ≠ 0 then
      some ⟨if t = "" then placeholderLabel else t, amt⟩
    else none

/-- The `daily_header` row fields written by the save branch. -/
structure DailyHeaderRow where
  cash_start : ℚ
  cash_end : ℚ
  total_in_enjaz : ℚ
  notes : Option String
  deriving Repr, DecidableEq

/-- A daily header together with its three child row sets. -/
structure DailyState where
  header : DailyHeaderRow
  inputs : List LineItem
  gen : List LineItem
  petty : List LineItem
  deriving Repr, DecidableEq

/-- The save (POST) branch of `accounting_daily` for one `(es, day_date)`
header (`src/app.py:592-656`): update the header fields, `DELETE` all three
child row sets, then insert exactly the processed submitted rows. -/
def accounting_daily_save (_old : DailyState)
    (cash_start cash_end total_in_enjaz : Option String) (notes : Option String)
    (input_types input_amounts gen_types gen_amounts
      petty_types petty_amounts : List String) : DailyState :=
  { header :=
      { cash_start := to_float cash_start 0
        cash_end := to_float cash_end 0
        total_in_enjaz := to_float total_in_enjaz 0
        notes :=
          let n := pyStrip (notes.getD "")
          if n = "" then none else some n }
    inputs := processRows input_types input_amounts
    gen := processRows gen_types gen_amounts
    petty := processRows petty_types petty_amounts }

/-- C6: the daily save replaces all three child row sets wholesale — the
result is independent of the previous state and contains exactly the
processed submitted rows; a blank or unparsable amount parses to 0 (commas
stripped before the parse); an empty-label row with nonzero amount is kept
under the placeholder label; an empty-label row with zero amount is
dropped. -/
theorem c6_daily_save_replaces_wholesale :
    (∀ (old old' : DailyState) (cs ce enj : Option String) (notes : Option String)
        (it ia gt ga pt pa : List String),
      accounting_daily_save old cs ce enj notes it ia gt ga pt pa
        = accounting_daily_save old' cs ce enj notes it ia gt ga pt pa) ∧
    (∀ (old : DailyState) (cs ce enj : Option String) (notes : Option String)
        (it ia gt ga pt pa : List String),
      (accounting_daily_save old cs ce enj notes it ia gt ga pt pa).inputs
          = processRows it ia ∧
      (accounting_daily_save old cs ce enj notes it ia gt ga pt pa).gen
          = processRows gt ga ∧
      (accounting_daily_save old cs ce enj notes it ia gt ga pt pa).petty
          = processRows pt pa) ∧
    (∀ d : ℚ, to_float none d = d) ∧
    (∀ s : String, parseFloat? (removeCommas (pyStrip s)) = none →
      to_float (some s) 0 = 0) ∧
    (∀ (s : String) (q : ℚ), parseFloat? (removeCommas (pyStrip s)) = some q →
      to_float (some s) 0 = q) ∧
    to_float (some " 1,234.50 ") 0 = 1234.5 ∧
    to_float (some "abc") 0 = 0 ∧
    to_float (some "") 0 = 0 ∧
    (∀ (t a : String) (ts as : List String), pyStrip t = "" → to_float (some a) 0 ≠ 0 →
      processRows (t :: ts) (a :: as)
        = ⟨placeholderLabel, to_float (some a) 0⟩ :: processRows ts as) ∧
    (∀ (t a : String) (ts as : List String), pyStrip t = "" → to_float (some a) 0 = 0 →
      processRows (t :: ts) (a :: as) = processRows ts as) := by
  refine ⟨fun old old' cs ce enj notes it ia gt ga pt pa => rfl,
    fun old cs ce enj notes it ia gt ga pt pa => ⟨rfl, rfl, rfl⟩,
    to_float_none, fun s h => to_float_parse_fail s 0 h,
    fun s q h => to_float_parse_ok s q 0 h, ?_, to_float_parse_fail "abc" 0 rfl,
    to_float_parse_fail "" 0 rfl, ?_, ?_⟩
  · rw [to_float_parse_ok " 1,234.50 "
      ((1 : ℚ) * (((1234 : ℕ) : ℚ) + ((50 : ℕ) : ℚ) / 10 ^ 2)) 0 rfl]
    norm_num
  · intro t a ts as ht ha
    simp only [processRows, List.zip_cons_cons, List.filterMap_cons, ht, ha]
    simp [ha]
  · intro t a ts as ht ha
    simp only [processRows, List.zip_cons_cons, List.filterMap_cons, ht, ha]
    simp

/-- C6 witness: the save at a concrete submission — an empty label with
amount "5" is stored under the placeholder, an empty label with amount "0"
is dropped. -/
theorem c6_daily_save_replaces_wholesale_witness :
    (pyStrip "" = "" ∧ to_float (some "5") 0 ≠ 0 ∧
      processRows ["", "x"] ["5", "7"]
        = ⟨placeholderLabel, to_float (some "5") 0⟩ :: processRows ["x"] ["7"]) ∧
    (pyStrip "" = "" ∧ to_float (some "0") 0 = 0 ∧
      processRows ["", "x"] ["0", "7"] = processRows ["x"] ["7"]) ∧
    parseFloat? (removeCommas (pyStrip "abc")) = none ∧ to_float (some "abc") 0 = 0 := by
  have h5 : to_float (some "5") 0 ≠ 0 := by
    rw [to_float_parse_ok "5" ((1 : ℚ) * (((5 : ℕ) : ℚ) + ((0 : ℕ) : ℚ) / 10 ^ 0)) 0 rfl]
    norm_num
  have h0 : to_float (some "0") 0 = 0 := by
    rw [to_float_parse_ok "0" ((1 : ℚ) * (((0 : ℕ) : ℚ) + ((0 : ℕ) : ℚ) / 10 ^ 0)) 0 rfl]
    norm_num
  refine ⟨⟨rfl, h5, ?_⟩, ⟨rfl, h0, ?_⟩, rfl, ?_⟩
  · exact c6_daily_save_replaces_wholesale.2.2.2.2.2.2.2.2.1 "" "5" ["x"] ["7"] rfl h5
  · exact c6_daily_save_replaces_wholesale.2.2.2.2.2.2.2.2.2 "" "0" ["x"] ["7"] rfl h0
  · exact c6_daily_save_replaces_wholesale.2.2.2.1 "abc" rfl

/-! ### External spreadsheet mirror (`ws_ensure_headers` / `ws_upsert` /
`ws_delete_by_id`, `src/app.py:284-318`)

A worksheet is its `get_all_values()` matrix: a list of rows of cell
strings. Row 1 is the header row; the scans run over `all_vals[1:]`. -/

abbrev Sheet := List (List String)

/-- `ws_ensure_headers` (`src/app.py:284-291`): an empty sheet gets the
header row appended; a wrong first row is deleted and replaced. -/
def ws_ensure_headers (sheet : Sheet) (headers : List String) : Sheet :=
  match sheet with
  | [] => [headers]
  | first :: rest => if first = headers then first :: rest else headers :: rest

/-- The row scan shared by `ws_upsert` and `ws_delete_by_id`
(`src/app.py:300-303` and `314-317`): position of the first data row that
is nonempty and whose first cell equals the key. -/
def findKeyIdx (rows : List (List String)) (key : String) : Option ℕ :=
  rows.findIdx? fun r => r.head? == some key

/-- `ws_upsert` (`src/app.py:294-309`): ensure headers, scan the data rows
for the key, overwrite the found row in place, else append. -/
def ws_upsert (sheet : Sheet) (headers row_values : List String)
    (row_id : ℕ) : Sheet :=
  let sheet1 := ws_ensure_headers sheet headers
  match findKeyIdx (sheet1.drop 1) (toString row_id) with
  | some i => sheet1.set (i + 1) row_values
  | none => sheet1 ++ [row_values]

/-- `ws_delete_by_id` (`src/app.py:312-318`): scan the data rows for the
key, delete the found row and return `true`, else leave the sheet and
return `false`. -/
def ws_delete_by_id (sheet : Sheet) (row_id : ℕ) : Sheet × Bool :=
  match findKeyIdx (sheet.drop 1) (toString row_id) with
  | some i => (sheet.eraseIdx (i + 1), true)
  | none => (sheet, false)

/-- Number of data rows (header row excluded) whose first cell equals the
key. -/
def countKey (sheet : Sheet) (key : String) : ℕ :=
  ((sheet.drop 1).filter fun r => r.head? == some key).length

/-! Bridging: the index-scan-then-mutate shape of the source is equivalent
to a structural recursion on the data rows, which the counting lemmas use. -/

/-- First-match overwrite-or-append, recursively. -/
def upsertData {α : Type} (p : α → Bool) (rv : α) : List α → List α
  | [] => [rv]
  | r :: rs => if p r then rv :: rs else r :: upsertData p rv rs

/-- First-match removal, recursively. -/
def deleteData {α : Type} (p : α → Bool) : List α → List α
  | [] => []
  | r :: rs => if p r then rs else r :: deleteData p rs

theorem findIdx_set_eq_upsertData {α : Type} (p : α → Bool) (rv : α)
    (rows : List α) :
    (match rows.findIdx? p with
      | some i => rows.set i rv
      | none => rows ++ [rv]) = upsertData p rv rows := by
  induction rows with
  | nil => rfl
  | cons r rs ih =>
      rw [upsertData]
      rw [List.findIdx?_cons, List.findIdx?_succ]
      by_cases hr : p r
      · simp [hr]
      · simp only [hr, if_false, Bool.false_eq_true]
        cases hf : rs.findIdx? p with
        | none =>
            rw [hf] at ih
            simpa using ih
        | some j =>
            rw [hf] at ih
            simpa using ih

theorem findIdx_erase_eq_deleteData {α : Type} (p : α → Bool)
    (rows : List α) :
    (match rows.findIdx? p with
      | some i => rows.eraseIdx i
      | none => rows) = deleteData p rows := by
  induction rows with
  | nil => rfl
  | cons r rs ih =>
      rw [deleteData]
      rw [List.findIdx?_cons, List.findIdx?_succ]
      by_cases hr : p r
      · simp [hr]
      · simp only [hr, if_false, Bool.false_eq_true]
        cases hf : rs.findIdx? p with
        | none =>
            rw [hf] at ih
            simpa using ih
        | some j =>
            rw [hf] at ih
            simpa using ih

theorem ws_ensure_headers_eq (sheet : Sheet) (headers : List String) :
    ws_ensure_headers sheet headers = headers :: sheet.drop 1 := by
  cases sheet with
  | nil => rfl
  | cons first rest =>
      by_cases h : first = headers
      · subst h; simp [ws_ensure_headers]
      · simp [ws_ensure_headers, h]

theorem ws_upsert_eq (sheet : Sheet) (headers rv : List String) (rid : ℕ) :
    ws_upsert sheet headers rv rid
      = headers :: upsertData (fun r => r.head? == some (toString rid)) rv
          (sheet.drop 1) := by
  rw [ws_upsert, ws_ensure_headers_eq,
    ← findIdx_set_eq_upsertData (fun r => r.head? == some (toString rid)) rv
      (sheet.drop 1)]
  rw [findKeyIdx]
  simp only [List.drop_succ_cons, List.drop_zero]
  cases hf : (sheet.drop 1).findIdx? fun r => r.head? == some (toString rid) with
  | none => rfl
  | some i => rfl

theorem ws_delete_cons (headers : List String) (rows : List (List String))
    (rid : ℕ) :
    ws_delete_by_id (headers :: rows) rid
      = (headers :: deleteData (fun r => r.head? == some (toString rid)) rows,
        (rows.findIdx? fun r => r.head? == some (toString rid)).isSome) := by
  rw [ws_delete_by_id, findKeyIdx]
  simp only [List.drop_succ_cons, List.drop_zero]
  have hd := findIdx_erase_eq_deleteData (fun r => r.head? == some (toString rid)) rows
  cases hf : rows.findIdx? fun r => r.head? == some (toString rid) with
  | none =>
      rw [hf] at hd
      simp only at hd
      rw [← hd]
      rfl
  | some i =>
      rw [hf] at hd
      simp only at hd
      simp only [List.eraseIdx_cons_succ]
      rw [hd]
      rfl

theorem countP_upsertData {α : Type} (p : α → Bool) (rv : α)
    (hrv : p rv = true) (rows : List α) (h : rows.countP p ≤ 1) :
    (upsertData p rv rows).countP p = 1 := by
  induction rows with
  | nil => simp [upsertData, List.countP_cons, hrv]
  | cons r rs ih =>
      rw [upsertData]
      by_cases hr : p r
      · rw [if_pos hr]
        rw [List.countP_cons_of_pos p rs hr] at h
        rw [List.countP_cons_of_pos p rs hrv]
        omega
      · rw [if_neg hr]
        rw [List.countP_cons_of_neg p rs hr] at h
        rw [List.countP_cons_of_neg p (upsertData p rv rs) hr]
        exact ih h

theorem upsertData_idem {α : Type} (p : α → Bool) (rv : α)
    (hrv : p rv = true) (rows : List α) :
    upsertData p rv (upsertData p rv rows) = upsertData p rv rows := by
  induction rows with
  | nil => simp [upsertData, hrv]
  | cons r rs ih =>
      rw [upsertData]
      by_cases hr : p r
      · rw [if_pos hr]
        rw [upsertData, if_pos hrv]
      · rw [if_neg hr]
        rw [upsertData, if_neg hr, ih]

theorem countP_deleteData {α : Type} (p : α → Bool) (rows : List α)
    (h : rows.countP p = 1) :
    (deleteData p rows).countP p = 0 := by
  induction rows with
  | nil => simp at h
  | cons r rs ih =>
      rw [deleteData]
      by_cases hr : p r
      · rw [if_pos hr]
        rw [List.countP_cons_of_pos p rs hr] at h
        omega
      · rw [if_neg hr]
        rw [List.countP_cons_of_neg p rs hr] at h
        rw [List.countP_cons_of_neg p (deleteData p rs) hr]
        exact ih h

/-- C8 counterexample: on a sheet that already holds two data rows keyed
"5", upserting `(5, ["5","c"])` twice leaves two rows whose first cell is
"5", not exactly one — the claim's universal quantification over every
sheet state fails. -/
theorem c8_upsert_counterexample :
    countKey
        (ws_upsert
          (ws_upsert [["id", "x"], ["5", "a"], ["5", "b"]] ["id", "x"] ["5", "c"] 5)
          ["id", "x"] ["5", "c"] 5)
        (toString (5 : ℕ)) ≠ 1 := by
  decide

/-- C8 (amended): provided at most one existing data row carries the key
(the invariant the mirror operations themselves maintain) and the row's
first cell is the string form of the key, upserting twice leaves exactly
one data row for that key and equals a single upsert (the second upsert
overwrites in place rather than appending); upserting then deleting leaves
zero rows for that key; deleting a key with no matching data row returns
the sheet unchanged with `found = false`. -/
theorem c8_mirror_upsert_delete (sheet : Sheet) (headers rv : List String)
    (rid : ℕ) (hhead : rv.head? = some (toString rid))
    (hcount : countKey sheet (toString rid) ≤ 1) :
    countKey (ws_upsert sheet headers rv rid) (toString rid) = 1 ∧
    ws_upsert (ws_upsert sheet headers rv rid) headers rv rid
      = ws_upsert sheet headers rv rid ∧
    countKey (ws_delete_by_id (ws_upsert sheet headers rv rid) rid).1
        (toString rid) = 0 ∧
    (∀ s : Sheet, countKey s (toString rid) = 0 → ws_delete_by_id s rid = (s, false)) := by
  have hrv : (fun r => r.head? == some (toString rid) : List String → Bool) rv = true := by
    simp [hhead]
  have hcount' : (sheet.drop 1).countP (fun r => r.head? == some (toString rid)) ≤ 1 := by
    rw [countKey, ← List.countP_eq_length_filter] at hcount
    exact hcount
  have hcnt1 :=
    countP_upsertData (fun r => r.head? == some (toString rid)) rv hrv (sheet.drop 1) hcount'
  refine ⟨?_, ?_, ?_, ?_⟩
  · rw [ws_upsert_eq, countKey, ← List.countP_eq_length_filter, List.drop_succ_cons,
      List.drop_zero]
    exact hcnt1
  · rw [ws_upsert_eq sheet headers rv rid, ws_upsert_eq, List.drop_succ_cons,
      List.drop_zero, upsertData_idem _ rv hrv]
  · rw [ws_upsert_eq, ws_delete_cons]
    rw [countKey, ← List.countP_eq_length_filter]
    simp only [List.drop_succ_cons, List.drop_zero]
    exact countP_deleteData _ _ hcnt1
  · intro s hs
    rw [countKey, ← List.countP_eq_length_filter] at hs
    have hnone : (s.drop 1).findIdx? (fun r => r.head? == some (toString rid)) = none := by
      rw [List.findIdx?_eq_none_iff]
      intro x hx
      by_contra hpx
      have hx1 : x ∈ (s.drop 1).filter (fun r => r.head? == some (toString rid)) := by
        rw [List.mem_filter]
        refine ⟨hx, ?_⟩
        revert hpx
        cases (fun r => r.head? == some (toString rid) : List String → Bool) x <;> simp
      have hpos : 0 < (s.drop 1).countP (fun r => r.head? == some (toString rid)) := by
        rw [List.countP_eq_length_filter]
        cases hfe : (s.drop 1).filter (fun r => r.head? == some (toString rid)) with
        | nil => rw [hfe] at hx1; exact absurd hx1 (List.not_mem_nil x)
        | cons b bs => simp [hfe]
      omega
    rw [ws_delete_by_id, findKeyIdx, hnone]

/-- C8 witness: a fresh sheet, key 7 — two upserts leave one data row for
the key, delete then leaves zero, and deleting from the key-free sheet is
a no-op. -/
theorem c8_mirror_upsert_delete_witness :
    (["7", "t"].head? = some (toString (7 : ℕ)) ∧
      countKey [["id", "x"]] (toString (7 : ℕ)) ≤ 1) ∧
    countKey (ws_upsert [["id", "x"]] ["id", "x"] ["7", "t"] 7) (toString (7 : ℕ)) = 1 ∧
    countKey (ws_delete_by_id (ws_upsert [["id", "x"]] ["id", "x"] ["7", "t"] 7) 7).1
        (toString (7 : ℕ)) = 0 ∧
    ws_delete_by_id [["id", "x"], ["9", "z"]] 7 = ([["id", "x"], ["9", "z"]], false) := by
  have h := c8_mirror_upsert_delete [["id", "x"]] ["id", "x"] ["7", "t"] 7
    (by decide) (by decide)
  exact ⟨⟨by decide, by decide⟩, h.1, h.2.2.1,
    h.2.2.2 [["id", "x"], ["9", "z"]] (by decide)⟩

/-! ### User deletion guard (`permissions_page`, `src/app.py:1674-1687`) -/

/-- The master account's username (`src/app.py:28`). -/
def MASTER_USERNAME : String := "adm-es"

/-- One `users` row (password hash and admin flag not relevant here). -/
structure User where
  id : ℕ
  username : String
  deriving Repr, DecidableEq

/-- One `permissions` row. -/
structure PermRow where
  user_id : ℕ
  perm_key : String
  allowed : Bool
  deriving Repr, DecidableEq

/-- The users and permissions tables. -/
structure AuthState where
  users : List User
  permissions : List PermRow
  deriving Repr, DecidableEq

/-- The `action == "delete_user"` branch of `permissions_page`
(`src/app.py:1674-1687`): look up the master row by username; if the
target id is the master's id, flash an error and redirect without touching
either table; otherwise delete the permission rows and the user row.
The returned flag is `true` iff the "cannot delete master" error was
flashed. -/
def delete_user (s : AuthState) (uid : ℕ) : AuthState × Bool :=
  match s.users.find? fun u => u.username == MASTER_USERNAME with
  | some m =>
      if uid = m.id then (s, true)
      else
        ({ users := s.users.filter fun u => u.id != uid
           permissions := s.permissions.filter fun p => p.user_id != uid }, false)
  | none =>
      ({ users := s.users.filter fun u => u.id != uid
         permissions := s.permissions.filter fun p => p.user_id != uid }, false)

/-- C9: a delete-user request targeting the master account's id is
refused: users and permissions are returned unchanged (so the master row
and all its permission rows still exist) and the handler flashes the
error and redirects instead of deleting. -/
theorem c9_master_delete_refused (s : AuthState) (uid : ℕ) (m : User)
    (hfind : (s.users.find? fun u => u.username == MASTER_USERNAME) = some m)
    (hid : uid = m.id) :
    delete_user s uid = (s, true) ∧
    m ∈ (delete_user s uid).1.users ∧
    ∀ p ∈ s.permissions, p ∈ (delete_user s uid).1.permissions := by
  have heq : delete_user s uid = (s, true) := by
    rw [delete_user, hfind]
    simp [hid]
  refine ⟨heq, ?_, ?_⟩
  · rw [heq]
    exact List.mem_of_find?_eq_some hfind
  · intro p hp
    rw [heq]
    exact hp

/-- C9 witness: a concrete two-user state; deleting the master's id (1)
changes nothing and reports the error. -/
theorem c9_master_delete_refused_witness :
    (([⟨1, "adm-es"⟩, ⟨2, "b"⟩] : List User).find?
        (fun u => u.username == MASTER_USERNAME) = some ⟨1, "adm-es"⟩) ∧
    delete_user ⟨[⟨1, "adm-es"⟩, ⟨2, "b"⟩], [⟨1, "tasks", true⟩]⟩ 1
      = (⟨[⟨1, "adm-es"⟩, ⟨2, "b"⟩], [⟨1, "tasks", true⟩]⟩, true) := by
  refine ⟨by decide, ?_⟩
  exact (c9_master_delete_refused ⟨[⟨1, "adm-es"⟩, ⟨2, "b"⟩], [⟨1, "tasks", true⟩]⟩
    1 ⟨1, "adm-es"⟩ (by decide) rfl).1

/-! ### Financial commitments ↔ tasks (`src/app.py:198-240` and `813-857`)

Amounts are `ℚ`; the Python `f"{amount:.2f}"` rendering is modelled as
round-half-even to two decimal places over `ℚ` (the idealisation of the
IEEE-double formatting on the decimal amounts this program stores). -/

/-- Round half to even, as Python's float formatting does. -/
def roundHalfEven (q : ℚ) : ℤ :=
  if q - ⌊q⌋ < 1 / 2 then ⌊q⌋
  else if 1 / 2 < q - ⌊q⌋ then ⌊q⌋ + 1
  else if 2 ∣ ⌊q⌋ then ⌊q⌋ else ⌊q⌋ + 1

/-- Two-digit zero-padded numeral. -/
def pad2 (n : ℕ) : String :=
  if n < 10 then "0" ++ toString n else toString n

/-- `f"{amount:.2f}"`: the amount rounded to two decimals, rendered with
exactly two fraction digits. -/
def fmt2 (q : ℚ) : String :=
  let n := roundHalfEven (q * 100)
  let a := n.natAbs
  (if n < 0 then "-" else "") ++ toString (a / 100) ++ "." ++ pad2 (a % 100)

/-- `_commitment_task_title` (`src/app.py:198-199`). -/
def commitment_task_title (party : String) (amount : ℚ) : String :=
  "التزام مالي — " ++ party ++ " — " ++ fmt2 amount ++ " ر.س"

/-- One `tasks` row. -/
structure Task where
  id : ℕ
  title : String
  due_date : Option String
  deriving Repr, DecidableEq

/-- One `financial_commitments` row. -/
structure Commitment where
  id : ℕ
  party : String
  amount : ℚ
  task_id : Option ℕ
  deriving Repr, DecidableEq

/-- The two tables touched by the commitments feature, plus the
`AUTOINCREMENT` counters (SQLite rowids start at 1, so a stored `task_id`
is never the falsy 0 and `if row["task_id"]` is exactly the NULL test). -/
structure CommitState where
  commitments : List Commitment
  tasks : List Task
  next_commitment_id : ℕ
  next_task_id : ℕ
  deriving Repr, DecidableEq

/-- `create_or_update_commitment_task` (`src/app.py:202-229`): re-read the
commitment row; absent → no-op; linked → rename the linked task in place;
unlinked → insert a new task and store its id on the commitment. -/
def create_or_update_commitment_task (s : CommitState) (cid : ℕ) : CommitState :=
  match s.commitments.find? fun c => c.id == cid with
  | none => s
  | some c =>
      let title := commitment_task_title c.party c.amount
      match c.task_id with
      | some tid =>
          { s with tasks := s.tasks.map fun t =>
              if t.id == tid then { t with title := title } else t }
      | none =>
          let tid := s.next_task_id
          { s with
            tasks := s.tasks ++ [⟨tid, title, none⟩]
            next_task_id := tid + 1
            commitments := s.commitments.map fun c2 =>
              if c2.id == cid then { c2 with task_id := some tid } else c2 }

/-- `delete_commitment_task` (`src/app.py:232-240`): delete the linked
task row, if any. -/
def delete_commitment_task (s : CommitState) (cid : ℕ) : CommitState :=
  match s.commitments.find? fun c => c.id == cid with
  | none => s
  | some c =>
      match c.task_id with
      | some tid => { s with tasks := s.tasks.filter fun t => t.id != tid }
      | none => s

/-- The `action == "add"` branch of `accounting_commitments_home`
(`src/app.py:823-832`): strip the party; an empty party inserts nothing;
otherwise insert the commitment and create its task. -/
def commitments_add (s : CommitState) (party : Option String)
    (amount_raw : Option String) : CommitState :=
  let p := pyStrip (party.getD "")
  let amount := to_float amount_raw 0
  if p = "" then s
  else
    let cid := s.next_commitment_id
    let s1 : CommitState :=
      { s with
        commitments := s.commitments ++ [⟨cid, p, amount, none⟩]
        next_commitment_id := cid + 1 }
    create_or_update_commitment_task s1 cid

/-- The `action == "update"` branch (`src/app.py:834-844`): overwrite
party and amount of the row with that id, then sync the linked task. -/
def commitments_update (s : CommitState) (cid : ℕ) (party : Option String)
    (amount_raw : Option String) : CommitState :=
  let p := pyStrip (party.getD "")
  let amount := to_float amount_raw 0
  let s1 : CommitState :=
    { s with commitments := s.commitments.map fun c =>
        if c.id == cid then { c with party := p, amount := amount } else c }
  create_or_update_commitment_task s1 cid

/-- The `action == "delete"` branch (`src/app.py:846-850`): delete the
linked task first, then the commitment row. -/
def commitments_delete (s : CommitState) (cid : ℕ) : CommitState :=
  let s1 := delete_commitment_task s cid
  { s1 with commitments := s1.commitments.filter fun c => c.id != cid }

/-- The full add-branch response: new state plus the flash messages
emitted. The add branch of `accounting_commitments_home` contains no
`flash` call and every path falls through to the same
`redirect(url_for("accounting_commitments_home"))` (`src/app.py:852`). -/
def commitments_post_add (s : CommitState) (party : Option String)
    (amount_raw : Option String) : CommitState × List (String × String) × String :=
  (commitments_add s party amount_raw, [], "accounting_commitments_home")

/-- The title-sync invariant: every commitment with a non-null task link
has exactly one task row with that id, and that task's title is the
fixed-format title built from the commitment's current party and amount. -/
def TaskSynced (s : CommitState) : Prop :=
  ∀ c ∈ s.commitments, ∀ tid : ℕ, c.task_id = some tid →
    ((s.tasks.filter fun t => t.id == tid).length = 1 ∧
      ∀ t ∈ s.tasks, t.id = tid → t.title = commitment_task_title c.party c.amount)

/-- Well-formedness of the two tables: ids below the autoincrement
counters, primary keys unique, task links injective, and titles synced. -/
structure WF (s : CommitState) : Prop where
  comm_lt : ∀ c ∈ s.commitments, c.id < s.next_commitment_id
  task_lt : ∀ t ∈ s.tasks, t.id < s.next_task_id
  link_lt : ∀ c ∈ s.commitments, ∀ tid : ℕ, c.task_id = some tid → tid < s.next_task_id
  comm_nodup : (s.commitments.map Commitment.id).Nodup
  task_nodup : (s.tasks.map Task.id).Nodup
  link_inj : ∀ c1 ∈ s.commitments, ∀ c2 ∈ s.commitments, ∀ tid : ℕ,
    c1.task_id = some tid → c2.task_id = some tid → c1 = c2
  synced : TaskSynced s

/-! Generic helpers: uniqueness of a row with a given key in a table with
no duplicate keys, and the behaviour of the `WHERE id=?` lookup. -/

theorem key_unique {α β : Type} (f : α → β) {l : List α}
    (hnd : (l.map f).Nodup) {a b : α} (ha : a ∈ l) (hb : b ∈ l)
    (h : f a = f b) : a = b := by
  induction l with
  | nil => exact absurd ha (List.not_mem_nil a)
  | cons x xs ih =>
      rw [List.map_cons, List.nodup_cons] at hnd
      rcases List.mem_cons.mp ha with ha1 | ha1 <;>
        rcases List.mem_cons.mp hb with hb1 | hb1
      · rw [ha1, hb1]
      · exfalso
        apply hnd.1
        rw [ha1] at h
        rw [h]
        exact List.mem_map_of_mem f hb1
      · exfalso
        apply hnd.1
        rw [hb1] at h
        rw [← h]
        exact List.mem_map_of_mem f ha1
      · exact ih hnd.2 ha1 hb1

theorem find?_eq_some_of_key {α : Type} (f : α → ℕ) {l : List α}
    (hnd : (l.map f).Nodup) {c0 : α} (hc0 : c0 ∈ l) (k : ℕ) (hk : f c0 = k) :
    l.find? (fun c => f c == k) = some c0 := by
  induction l with
  | nil => exact absurd hc0 (List.not_mem_nil c0)
  | cons x xs ih =>
      by_cases hx : f x = k
      · rw [List.find?_cons_of_pos xs (by simp [hx])]
        have : x = c0 := key_unique f hnd (List.mem_cons_self x xs) hc0 (by rw [hx, hk])
        rw [this]
      · rw [List.find?_cons_of_neg xs (by simp [hx])]
        rw [List.map_cons, List.nodup_cons] at hnd
        have hc0' : c0 ∈ xs := by
          rcases List.mem_cons.mp hc0 with h1 | h1
          · exact absurd (by rw [← h1, hk]) hx
          · exact h1
        exact ih hnd.2 hc0'

/-- Characterisation of the add branch for a non-blank party: one
commitment row and one task row are appended, linked to each other. -/
theorem commitments_add_spec (s : CommitState) (party amount_raw : Option String)
    (hN : ∀ c ∈ s.commitments, c.id < s.next_commitment_id)
    (hp : ¬ pyStrip (party.getD "") = "") :
    commitments_add s party amount_raw =
      { commitments := s.commitments ++
          [⟨s.next_commitment_id, pyStrip (party.getD ""), to_float amount_raw 0,
            some s.next_task_id⟩]
        tasks := s.tasks ++ [⟨s.next_task_id,
          commitment_task_title (pyStrip (party.getD "")) (to_float amount_raw 0),
          none⟩]
        next_commitment_id := s.next_commitment_id + 1
        next_task_id := s.next_task_id + 1 } := by
  rw [commitments_add]
  simp only [hp, if_false]
  have hfind : ((s.commitments ++
        [(⟨s.next_commitment_id, pyStrip (party.getD ""), to_float amount_raw 0,
          none⟩ : Commitment)]).find? fun c => c.id == s.next_commitment_id)
      = some ⟨s.next_commitment_id, pyStrip (party.getD ""), to_float amount_raw 0,
          none⟩ := by
    rw [List.find?_append]
    have h1 : (s.commitments.find? fun c => c.id == s.next_commitment_id) = none := by
      rw [List.find?_eq_none]
      intro c hc
      have := hN c hc
      simp only [beq_iff_eq]
      omega
    rw [h1]
    simp
  rw [create_or_update_commitment_task]
  simp only [hfind]
  have hmap : ((s.commitments ++
        [(⟨s.next_commitment_id, pyStrip (party.getD ""), to_float amount_raw 0,
          none⟩ : Commitment)]).map fun c2 =>
          if c2.id == s.next_commitment_id then { c2 with task_id := some s.next_task_id }
          else c2)
      = s.commitments ++
          [⟨s.next_commitment_id, pyStrip (party.getD ""), to_float amount_raw 0,
            some s.next_task_id⟩] := by
    rw [List.map_append]
    have h2 : (s.commitments.map fun c2 =>
        if c2.id == s.next_commitment_id then { c2 with task_id := some s.next_task_id }
        else c2) = s.commitments := by
      rw [List.map_congr_left, List.map_id']
      intro c hc
      have := hN c hc
      have hne : (c.id == s.next_commitment_id) = false := by
        simp only [beq_eq_false_iff_ne, ne_eq]
        omega
      rw [hne]
      simp
    rw [h2]
    simp
  rw [hmap]

/-- Characterisation of the update branch for an existing, linked
commitment: the commitment row is overwritten and the linked task is
renamed in place. -/
theorem commitments_update_spec (s : CommitState) (cid : ℕ)
    (party amount_raw : Option String) (c0 : Commitment) (tid : ℕ)
    (hnd : (s.commitments.map Commitment.id).Nodup)
    (hc0 : c0 ∈ s.commitments) (hid : c0.id = cid)
    (hlink : c0.task_id = some tid) :
    commitments_update s cid party amount_raw =
      { commitments := s.commitments.map fun c =>
          if c.id == cid then
            { c with
                party := pyStrip (party.getD "")
                amount := to_float amount_raw 0 }
          else c
        tasks := s.tasks.map fun t =>
          if t.id == tid then
            { t with
                title :=
                  commitment_task_title (pyStrip (party.getD "")) (to_float amount_raw 0) }
          else t
        next_commitment_id := s.next_commitment_id
        next_task_id := s.next_task_id } := by
  rw [commitments_update]
  have hfind : ((s.commitments.map fun c =>
        if c.id == cid then
          { c with party := pyStrip (party.getD ""), amount := to_float amount_raw 0 }
        else c).find? fun c => c.id == cid)
      = some { c0 with
                  party := pyStrip (party.getD "")
                  amount := to_float amount_raw 0 } := by
    have hkey : ∀ c : Commitment,
        (if c.id == cid then
          { c with party := pyStrip (party.getD ""), amount := to_float amount_raw 0 }
        else c).id = c.id := by
      intro c
      by_cases h : c.id == cid
      · rw [if_pos h]
      · rw [if_neg h]
    rw [List.find?_map]
    have hcomp : ((fun c : Commitment => c.id == cid) ∘ fun c =>
        if c.id == cid then
          { c with party := pyStrip (party.getD ""), amount := to_float amount_raw 0 }
        else c) = fun c : Commitment => c.id == cid := by
      funext c
      simp only [Function.comp_apply, hkey c]
    rw [hcomp, find?_eq_some_of_key Commitment.id hnd hc0 cid hid]
    rw [Option.map_some']
    rw [if_pos (by simp [hid])]
  rw [create_or_update_commitment_task]
  simp only [hfind, hlink]

/-- Characterisation of the delete branch for an existing, linked
commitment: the linked task row and the commitment row are removed. -/
theorem commitments_delete_spec (s : CommitState) (cid : ℕ)
    (c0 : Commitment) (tid : ℕ)
    (hnd : (s.commitments.map Commitment.id).Nodup)
    (hc0 : c0 ∈ s.commitments) (hid : c0.id = cid)
    (hlink : c0.task_id = some tid) :
    commitments_delete s cid =
      { commitments := s.commitments.filter fun c => c.id != cid
        tasks := s.tasks.filter fun t => t.id != tid
        next_commitment_id := s.next_commitment_id
        next_task_id := s.next_task_id } := by
  rw [commitments_delete, delete_commitment_task]
  rw [find?_eq_some_of_key Commitment.id hnd hc0 cid hid]
  simp only [hlink]

/-- The add branch preserves well-formedness (in particular the
title-sync invariant). -/
theorem WF_commitments_add (s : CommitState) (hW : WF s)
    (party amount_raw : Option String) :
    WF (commitments_add s party amount_raw) := by
  by_cases hp : pyStrip (party.getD "") = ""
  · rw [commitments_add]
    simp only [hp, if_true]
    exact hW
  · rw [commitments_add_spec s party amount_raw hW.comm_lt hp]
    refine ⟨?_, ?_, ?_, ?_, ?_, ?_, ?_⟩
    · intro c hc
      rcases List.mem_append.mp hc with h | h
      · have := hW.comm_lt c h
        simp only
        omega
      · simp only [List.mem_singleton] at h
        subst h
        simp only
        omega
    · intro t ht
      rcases List.mem_append.mp ht with h | h
      · have := hW.task_lt t h
        simp only
        omega
      · simp only [List.mem_singleton] at h
        subst h
        simp only
        omega
    · intro c hc tid htid
      rcases List.mem_append.mp hc with h | h
      · have := hW.link_lt c h tid htid
        simp only
        omega
      · simp only [List.mem_singleton] at h
        subst h
        simp only at htid
        cases htid
        simp only
        omega
    · rw [List.map_append, List.nodup_append]
      refine ⟨hW.comm_nodup, by simp, ?_⟩
      intro a ha hb
      simp only [List.map_cons, List.map_nil, List.mem_singleton] at hb
      subst hb
      obtain ⟨c, hc, hca⟩ := List.mem_map.mp ha
      have := hW.comm_lt c hc
      omega
    · rw [List.map_append, List.nodup_append]
      refine ⟨hW.task_nodup, by simp, ?_⟩
      intro a ha hb
      simp only [List.map_cons, List.map_nil, List.mem_singleton] at hb
      subst hb
      obtain ⟨t, ht, hta⟩ := List.mem_map.mp ha
      have := hW.task_lt t ht
      omega
    · intro c1 h1 c2 h2 tid ht1 ht2
      rcases List.mem_append.mp h1 with ha | ha <;>
        rcases List.mem_append.mp h2 with hb | hb
      · exact hW.link_inj c1 ha c2 hb tid ht1 ht2
      · simp only [List.mem_singleton] at hb
        subst hb
        simp only at ht2
        cases ht2
        have := hW.link_lt c1 ha _ ht1
        omega
      · simp only [List.mem_singleton] at ha
        subst ha
        simp only at ht1
        cases ht1
        have := hW.link_lt c2 hb _ ht2
        omega
      · simp only [List.mem_singleton] at ha hb
        rw [ha, hb]
    · intro c hc tid htid
      rcases List.mem_append.mp hc with h | h
      · have hs := hW.synced c h tid htid
        have htlt : tid < s.next_task_id := hW.link_lt c h tid htid
        constructor
        · rw [List.filter_append]
          have hne : (((⟨s.next_task_id,
              commitment_task_title (pyStrip (party.getD "")) (to_float amount_raw 0),
              none⟩ : Task).id == tid)) = false := by
            simp only [beq_eq_false_iff_ne, ne_eq]
            omega
          simp only [List.filter_cons, hne, List.filter_nil]
          simp only [Bool.false_eq_true, if_false]
          rw [List.append_nil]
          exact hs.1
        · intro t ht htt
          rcases List.mem_append.mp ht with h' | h'
          · exact hs.2 t h' htt
          · simp only [List.mem_singleton] at h'
            subst h'
            simp only at htt
            omega
      · simp only [List.mem_singleton] at h
        subst h
        simp only at htid
        cases htid
        constructor
        · rw [List.filter_append]
          have hfe : (s.tasks.filter fun t => t.id == s.next_task_id) = [] := by
            rw [List.filter_eq_nil_iff]
            intro t ht
            have := hW.task_lt t ht
            simp only [beq_iff_eq]
            omega
          rw [hfe]
          simp
        · intro t ht htt
          rcases List.mem_append.mp ht with h' | h'
          · have := hW.task_lt t h'
            omega
          · simp only [List.mem_singleton] at h'
            subst h'
            rfl

/-- The update branch, on an existing linked commitment, preserves
well-formedness. -/
theorem WF_commitments_update (s : CommitState) (cid : ℕ)
    (party amount_raw : Option String) (c0 : Commitment) (tid : ℕ)
    (hW : WF s) (hc0 : c0 ∈ s.commitments) (hid : c0.id = cid)
    (hlink : c0.task_id = some tid) :
    WF (commitments_update s cid party amount_raw) := by
  rw [commitments_update_spec s cid party amount_raw c0 tid hW.comm_nodup hc0 hid hlink]
  have hfid : ∀ c : Commitment,
      (if c.id == cid then
        { c with
            party := pyStrip (party.getD "")
            amount := to_float amount_raw 0 }
      else c).id = c.id := by
    intro c
    by_cases h : c.id == cid
    · rw [if_pos h]
    · rw [if_neg h]
  have hftask : ∀ c : Commitment,
      (if c.id == cid then
        { c with
            party := pyStrip (party.getD "")
            amount := to_float amount_raw 0 }
      else c).task_id = c.task_id := by
    intro c
    by_cases h : c.id == cid
    · rw [if_pos h]
    · rw [if_neg h]
  have hgid : ∀ t : Task,
      (if t.id == tid then
        { t with
            title :=
              commitment_task_title (pyStrip (party.getD "")) (to_float amount_raw 0) }
      else t).id = t.id := by
    intro t
    by_cases h : t.id == tid
    · rw [if_pos h]
    · rw [if_neg h]
  refine ⟨?_, ?_, ?_, ?_, ?_, ?_, ?_⟩
  · intro c' hc'
    obtain ⟨c, hc, hmap⟩ := List.mem_map.mp hc'
    rw [← hmap, hfid]
    exact hW.comm_lt c hc
  · intro t' ht'
    obtain ⟨t, ht, hmap⟩ := List.mem_map.mp ht'
    rw [← hmap, hgid]
    exact hW.task_lt t ht
  · intro c' hc' tid' htid'
    obtain ⟨c, hc, hmap⟩ := List.mem_map.mp hc'
    rw [← hmap, hftask] at htid'
    exact hW.link_lt c hc tid' htid'
  · rw [List.map_map]
    have : (Commitment.id ∘ fun c =>
        if c.id == cid then
          { c with
              party := pyStrip (party.getD "")
              amount := to_float amount_raw 0 }
        else c) = Commitment.id := by
      funext c
      exact hfid c
    rw [this]
    exact hW.comm_nodup
  · rw [List.map_map]
    have : (Task.id ∘ fun t =>
        if t.id == tid then
          { t with
              title :=
                commitment_task_title (pyStrip (party.getD "")) (to_float amount_raw 0) }
        else t) = Task.id := by
      funext t
      exact hgid t
    rw [this]
    exact hW.task_nodup
  · intro c1' h1 c2' h2 tid' ht1 ht2
    obtain ⟨c1, hm1, hmap1⟩ := List.mem_map.mp h1
    obtain ⟨c2, hm2, hmap2⟩ := List.mem_map.mp h2
    rw [← hmap1, hftask] at ht1
    rw [← hmap2, hftask] at ht2
    have := hW.link_inj c1 hm1 c2 hm2 tid' ht1 ht2
    rw [← hmap1, ← hmap2, this]
  · intro c' hc' tid' htid'
    obtain ⟨c, hc, hmap⟩ := List.mem_map.mp hc'
    rw [← hmap, hftask] at htid'
    have hcount : ∀ k : ℕ,
        ((s.tasks.map fun t =>
            if t.id == tid then
              { t with
                  title :=
                    commitment_task_title (pyStrip (party.getD ""))
                      (to_float amount_raw 0) }
            else t).filter fun t => t.id == k).length
          = ((s.tasks.filter fun t => t.id == k).length) := by
      intro k
      rw [← List.countP_eq_length_filter, ← List.countP_eq_length_filter,
        List.countP_map]
      apply List.countP_congr
      intro t ht
      simp only [Function.comp_apply, hgid t]
    by_cases hcc : c.id = cid
    · have hceq : c = c0 :=
        key_unique Commitment.id hW.comm_nodup hc hc0 (by rw [hcc, hid])
      subst hceq
      rw [hlink] at htid'
      cases htid'
      have hctrue : (c.id == cid) = true := by simp [hcc]
      constructor
      · exact (hcount tid).trans (hW.synced c hc tid hlink).1
      · intro t' ht' htt'
        obtain ⟨t, ht, hmapt⟩ := List.mem_map.mp ht'
        rw [← hmapt, hgid] at htt'
        have httrue : (t.id == tid) = true := by simp [htt']
        rw [← hmapt, ← hmap]
        simp only [httrue, hctrue, if_true]
    · have hcfalse : (c.id == cid) = false := by simp [hcc]
      have hcid : (if c.id == cid then
          { c with
              party := pyStrip (party.getD "")
              amount := to_float amount_raw 0 }
        else c) = c := by rw [hcfalse]; simp
      have htne : tid' ≠ tid := by
        intro he
        subst he
        have := hW.link_inj c hc c0 hc0 tid' htid' hlink
        rw [this] at hcc
        exact hcc hid
      have hs := hW.synced c hc tid' htid'
      constructor
      · exact (hcount tid').trans hs.1
      · intro t' ht' htt'
        obtain ⟨t, ht, hmapt⟩ := List.mem_map.mp ht'
        rw [← hmapt, hgid] at htt'
        have htfalse : (t.id == tid) = false := by
          simp only [beq_eq_false_iff_ne, ne_eq]
          rw [htt']
          exact htne
        rw [← hmapt, ← hmap, hcid]
        simp only [htfalse, Bool.false_eq_true, if_false]
        exact hs.2 t ht htt'

/-- The delete branch, on an existing linked commitment, preserves
well-formedness. -/
theorem WF_commitments_delete (s : CommitState) (cid : ℕ)
    (c0 : Commitment) (tid : ℕ) (hW : WF s) (hc0 : c0 ∈ s.commitments)
    (hid : c0.id = cid) (hlink : c0.task_id = some tid) :
    WF (commitments_delete s cid) := by
  rw [commitments_delete_spec s cid c0 tid hW.comm_nodup hc0 hid hlink]
  refine ⟨?_, ?_, ?_, ?_, ?_, ?_, ?_⟩
  · intro c hc
    exact hW.comm_lt c (List.mem_filter.mp hc).1
  · intro t ht
    exact hW.task_lt t (List.mem_filter.mp ht).1
  · intro c hc tid' htid'
    exact hW.link_lt c (List.mem_filter.mp hc).1 tid' htid'
  · exact ((List.filter_sublist s.commitments).map Commitment.id).nodup hW.comm_nodup
  · exact ((List.filter_sublist s.tasks).map Task.id).nodup hW.task_nodup
  · intro c1 h1 c2 h2 tid' ht1 ht2
    exact hW.link_inj c1 (List.mem_filter.mp h1).1 c2 (List.mem_filter.mp h2).1 tid' ht1 ht2
  · intro c hc tid' htid'
    obtain ⟨hcm, hcne⟩ := List.mem_filter.mp hc
    have hcc : c.id ≠ cid := by
      simp only [bne_iff_ne, ne_eq] at hcne
      exact hcne
    have htne : tid' ≠ tid := by
      intro he
      subst he
      have := hW.link_inj c hcm c0 hc0 tid' htid' hlink
      rw [this] at hcc
      exact hcc hid
    have hs := hW.synced c hcm tid' htid'
    constructor
    · have h' : ∀ t ∈ s.tasks,
          ((t.id == tid' && t.id != tid) = true) ↔ ((t.id == tid') = true) := by
        intro t ht
        constructor
        · intro hb
          simp only [Bool.and_eq_true] at hb
          exact hb.1
        · intro hb
          rw [Bool.and_eq_true]
          refine ⟨hb, ?_⟩
          simp only [beq_iff_eq] at hb
          simp only [bne_iff_ne, ne_eq]
          rw [hb]
          exact htne
      have hcongr := List.countP_congr h'
      have hcount := (List.countP_eq_length_filter
        (fun t => t.id == tid') ((s.tasks.filter fun t => t.id != tid))).symm
      calc ((s.tasks.filter fun t => t.id != tid).filter fun t => t.id == tid').length
          = List.countP (fun t => t.id == tid') (s.tasks.filter fun t => t.id != tid) :=
            (List.countP_eq_length_filter _ _).symm
        _ = List.countP (fun t => t.id == tid' && t.id != tid) s.tasks :=
            List.countP_filter (fun t => t.id == tid') (fun t => t.id != tid) s.tasks
        _ = List.countP (fun t => t.id == tid') s.tasks := hcongr
        _ = (s.tasks.filter fun t => t.id == tid').length :=
            List.countP_eq_length_filter _ _
        _ = 1 := hs.1
    · intro t ht htt
      exact hs.2 t (List.mem_filter.mp ht).1 htt

theorem roundHalfEven_intCast (z : ℤ) : roundHalfEven ((z : ℤ) : ℚ) = z := by
  rw [roundHalfEven, Int.floor_intCast]
  rw [if_pos]
  norm_num

theorem fmt2_100 : fmt2 100 = "100.00" := by
  have h1 : (100 : ℚ) * 100 = ((10000 : ℤ) : ℚ) := by norm_num
  simp only [fmt2]
  rw [h1, roundHalfEven_intCast]
  decide

theorem fmt2_250_5 : fmt2 (501 / 2) = "250.50" := by
  have h1 : (501 / 2 : ℚ) * 100 = ((25050 : ℤ) : ℚ) := by norm_num
  simp only [fmt2]
  rw [h1, roundHalfEven_intCast]
  decide

/-- C3: commitment/task sync. On a well-formed state: adding a commitment
with a non-blank party appends exactly one task, linked from the new
commitment, and preserves the sync invariant (`WF` contains `TaskSynced`:
every linked task's title is the fixed-format string built from the
commitment's current party and amount). Updating an existing linked
commitment renames that same task in place — the task table keeps exactly
the same ids and length, the linked task gets the title rebuilt from the
new party/amount — and preserves the invariant. Deleting an existing
linked commitment removes exactly the linked task row and the commitment
row, and preserves the invariant. The title renders the amount with two
decimals (e.g. 100 → "100.00", 250.5 → "250.50"). -/
theorem c3_commitment_task_sync (s : CommitState) (hW : WF s) :
    (∀ party amount_raw : Option String, ¬ pyStrip (party.getD "") = "" →
      ((commitments_add s party amount_raw).tasks.length = s.tasks.length + 1 ∧
        (⟨s.next_commitment_id, pyStrip (party.getD ""), to_float amount_raw 0,
          some s.next_task_id⟩ : Commitment)
            ∈ (commitments_add s party amount_raw).commitments ∧
        (⟨s.next_task_id,
          commitment_task_title (pyStrip (party.getD "")) (to_float amount_raw 0),
          none⟩ : Task) ∈ (commitments_add s party amount_raw).tasks ∧
        WF (commitments_add s party amount_raw))) ∧
    (∀ (cid : ℕ) (party amount_raw : Option String) (c0 : Commitment) (tid : ℕ),
      c0 ∈ s.commitments → c0.id = cid → c0.task_id = some tid →
      ((commitments_update s cid party amount_raw).tasks.map Task.id
          = s.tasks.map Task.id ∧
        (commitments_update s cid party amount_raw).tasks.length = s.tasks.length ∧
        (∀ t ∈ (commitments_update s cid party amount_raw).tasks, t.id = tid →
          t.title = commitment_task_title (pyStrip (party.getD ""))
            (to_float amount_raw 0)) ∧
        WF (commitments_update s cid party amount_raw))) ∧
    (∀ (cid : ℕ) (c0 : Commitment) (tid : ℕ),
      c0 ∈ s.commitments → c0.id = cid → c0.task_id = some tid →
      ((commitments_delete s cid).tasks = s.tasks.filter (fun t => t.id != tid) ∧
        (commitments_delete s cid).commitments
          = s.commitments.filter (fun c => c.id != cid) ∧
        WF (commitments_delete s cid))) ∧
    fmt2 100 = "100.00" ∧ fmt2 (501 / 2) = "250.50" := by
  refine ⟨?_, ?_, ?_, fmt2_100, fmt2_250_5⟩
  · intro party amount_raw hp
    have haspec := commitments_add_spec s party amount_raw hW.comm_lt hp
    have htasks : (commitments_add s party amount_raw).tasks
        = s.tasks ++ [⟨s.next_task_id,
            commitment_task_title (pyStrip (party.getD "")) (to_float amount_raw 0),
            none⟩] := by rw [haspec]
    have hcomms : (commitments_add s party amount_raw).commitments
        = s.commitments ++ [⟨s.next_commitment_id, pyStrip (party.getD ""),
            to_float amount_raw 0, some s.next_task_id⟩] := by rw [haspec]
    refine ⟨?_, ?_, ?_, WF_commitments_add s hW party amount_raw⟩
    · rw [htasks, List.length_append]
      rfl
    · rw [hcomms]
      exact List.mem_append_right _ (List.mem_singleton_self _)
    · rw [htasks]
      exact List.mem_append_right _ (List.mem_singleton_self _)
  · intro cid party amount_raw c0 tid hc0 hid hlink
    have hspec := commitments_update_spec s cid party amount_raw c0 tid
      hW.comm_nodup hc0 hid hlink
    have hgid : ∀ t : Task,
        (if t.id == tid then
          { t with
              title :=
                commitment_task_title (pyStrip (party.getD "")) (to_float amount_raw 0) }
        else t).id = t.id := by
      intro t
      by_cases h : t.id == tid
      · rw [if_pos h]
      · rw [if_neg h]
    have htasks : (commitments_update s cid party amount_raw).tasks
        = s.tasks.map fun t =>
            if t.id == tid then
              { t with
                  title :=
                    commitment_task_title (pyStrip (party.getD ""))
                      (to_float amount_raw 0) }
            else t := by rw [hspec]
    refine ⟨?_, ?_, ?_,
      WF_commitments_update s cid party amount_raw c0 tid hW hc0 hid hlink⟩
    · rw [htasks, List.map_map]
      exact List.map_congr_left fun t ht => hgid t
    · rw [htasks, List.length_map]
    · intro t' ht' htt'
      rw [htasks] at ht'
      obtain ⟨t, ht, hmapt⟩ := List.mem_map.mp ht'
      rw [← hmapt, hgid] at htt'
      have httrue : (t.id == tid) = true := by simp [htt']
      rw [← hmapt]
      simp only [httrue, if_true]
  · intro cid c0 tid hc0 hid hlink
    have hspec := commitments_delete_spec s cid c0 tid hW.comm_nodup hc0 hid hlink
    exact ⟨by rw [hspec], by rw [hspec],
      WF_commitments_delete s cid c0 tid hW hc0 hid hlink⟩

/-- C3 witness: from the empty (freshly bootstrapped) state, adding a
commitment with party "X" and amount "100" appends exactly one linked
task, and the invariant holds afterwards. -/
theorem c3_commitment_task_sync_witness :
    WF (⟨[], [], 1, 1⟩ : CommitState) ∧
    ¬ pyStrip ((some "X").getD "") = "" ∧
    ((commitments_add ⟨[], [], 1, 1⟩ (some "X") (some "100")).tasks.length
        = (⟨[], [], 1, 1⟩ : CommitState).tasks.length + 1 ∧
      (⟨1, pyStrip ((some "X").getD ""), to_float (some "100") 0, some 1⟩ : Commitment)
          ∈ (commitments_add ⟨[], [], 1, 1⟩ (some "X") (some "100")).commitments ∧
      WF (commitments_add ⟨[], [], 1, 1⟩ (some "X") (some "100"))) := by
  have hW0 : WF (⟨[], [], 1, 1⟩ : CommitState) := by
    refine ⟨?_, ?_, ?_, ?_, ?_, ?_, ?_⟩ <;> simp [TaskSynced]
  have h := (c3_commitment_task_sync ⟨[], [], 1, 1⟩ hW0).1 (some "X") (some "100")
    (by decide)
  exact ⟨hW0, by decide, h.1, h.2.1, h.2.2.2⟩

/-- C10: a POST with action "add" and a blank (empty or whitespace-only
after strip) party is a silent no-op: the state is unchanged — no
commitment row inserted, no task created — and the response is the same
flash-free redirect every add request gets. -/
theorem c10_blank_party_add_noop (s : CommitState)
    (party amount_raw : Option String) (hp : pyStrip (party.getD "") = "") :
    commitments_post_add s party amount_raw
        = (s, [], "accounting_commitments_home") ∧
    (commitments_post_add s party amount_raw).1.commitments = s.commitments ∧
    (commitments_post_add s party amount_raw).1.tasks = s.tasks ∧
    (∀ (s' : CommitState) (party' amount' : Option String),
      (commitments_post_add s' party' amount').2
        = ([], "accounting_commitments_home")) := by
  have h : commitments_add s party amount_raw = s := by
    rw [commitments_add]
    simp [hp]
  have hpost : commitments_post_add s party amount_raw
      = (s, [], "accounting_commitments_home") := by
    rw [commitments_post_add, h]
  exact ⟨hpost, by rw [hpost], by rw [hpost], fun s' p' a' => rfl⟩

/-- C10 witness: a whitespace-only party against a concrete one-commitment
state leaves the state identical and produces the standard flash-free
redirect. -/
theorem c10_blank_party_add_noop_witness :
    pyStrip ((some "   ").getD "") = "" ∧
    commitments_post_add ⟨[⟨1, "a", 5, some 1⟩], [⟨1, "t", none⟩], 2, 2⟩
        (some "   ") (some "50")
      = (⟨[⟨1, "a", 5, some 1⟩], [⟨1, "t", none⟩], 2, 2⟩, [],
        "accounting_commitments_home") :=
  ⟨by decide,
    (c10_blank_party_add_noop ⟨[⟨1, "a", 5, some 1⟩], [⟨1, "t", none⟩], 2, 2⟩
      (some "   ") (some "50") (by decide)).1⟩

end RecordsApp
